import Mathlib

/-!
Shallow embedding of `differential_evolution.py` (class `DifferentialEvolution`):
a differential-evolution optimizer that places rectangular, circular and diamond
pieces on a rectangular sheet, scoring candidate layouts with a penalty and
improving them over `max_iter` generations of mutate / crossover / select.

Modelling conventions:
* Python dicts with optional keys (`largura`/`altura` vs `r`) become a `Shape`
  structure with `Option ℚ` fields; `dict.get(key, dflt)` becomes `Option.getD`.
* Python floats become exact rationals `ℚ` (`0.8` is `4/5`, `0.9` is `9/10`).
* `np.sqrt d2 < t` (where `d2` is a sum of squares, hence nonnegative) is
  embedded as the equivalent rational test `0 < t ∧ d2 < t * t`.
* Randomness is passed explicitly: `random.uniform(a,b)` reads a raw draw
  `u ∈ [0,1]` and returns `a + (b-a)*u`; `random.random()` per loop index is a
  function `ℕ → ℚ`; `random.choice([0,90])` reads a seed mod 2;
  `random.sample(l, 3)` is selection without replacement driven by three seeds.
* `for`-loops that accumulate a numeric penalty become sums over `List.range`;
  loops that build a list become `List.map` over `List.range`.
-/

namespace DiffEvo

/-- A shape record, embedding the Python dicts used throughout the file: `tipo`
is the kind tag; `largura`/`altura` (width/height) are present on rectangular
and diamond records, `r` on circular records; `x`, `y` is the placement and
`rotacao` the rotation field (present only after initialization sets it). -/
structure Shape where
  tipo : String
  largura : Option ℚ
  altura : Option ℚ
  r : Option ℚ
  x : ℚ
  y : ℚ
  rotacao : Option ℚ
deriving DecidableEq, Repr, Inhabited

/-- Embeds `shape.get('largura', shape.get('r', 0) * 2)`: the x-extent used by
initialization, evaluation and mutation. -/
def Shape.getLargura (s : Shape) : ℚ := s.largura.getD (s.r.getD 0 * 2)

/-- Embeds `shape.get('altura', shape.get('r', 0) * 2)`: the y-extent used by
initialization, evaluation and mutation. -/
def Shape.getAltura (s : Shape) : ℚ := s.altura.getD (s.r.getD 0 * 2)

/-- Configuration stored by `DifferentialEvolution.__init__` (which stores its
arguments unvalidated; the population seeded there is modelled by
`initialize_population` below). `max_iter` is an integer, as in Python, so that
negative values can be represented. -/
structure DifferentialEvolution where
  pop_size : ℕ
  max_iter : ℤ
  sheet_width : ℚ
  sheet_height : ℚ
  recortes_disponiveis : List Shape
deriving Repr

/-- Embeds Python `random.uniform(a, b) = a + (b - a) * u`, where `u ∈ [0,1]`
is the raw generator draw. For `b < a` Python silently returns a value in
`[b, a]`; the formula covers that case as well. -/
def uniform (a b u : ℚ) : ℚ := a + (b - a) * u

/-- Embeds `DifferentialEvolution.initialize_population`. The raw random draws
are explicit: `ux p k`, `uy p k` are the `random.uniform` draws in `[0,1]` for
candidate `p`, piece `k`, and `urot p k` seeds `random.choice([0, 90])`.
The Python code performs no validation and cannot fail. -/
def initialize_population (de : DifferentialEvolution)
    (ux uy : ℕ → ℕ → ℚ) (urot : ℕ → ℕ → ℕ) : List (List Shape) :=
  (List.range de.pop_size).map (fun p =>
    (List.range de.recortes_disponiveis.length).map (fun k =>
      let recorte := de.recortes_disponiveis.getD k default
      let new_x := uniform 0 (de.sheet_width - recorte.getLargura) (ux p k)
      let new_y := uniform 0 (de.sheet_height - recorte.getAltura) (uy p k)
      let new_rotation := [(0 : ℚ), 90].getD (urot p k % 2) 0
      { recorte with x := new_x, y := new_y, rotacao := some new_rotation }))

/-- Embeds the first out-of-sheet test in `evaluate`:
`shape['x'] < 0 or shape['x'] + shape.get('largura', shape.get('r', 0) * 2) > self.sheet_width`. -/
def outOfSheetX (de : DifferentialEvolution) (shape : Shape) : Bool :=
  decide (shape.x < 0 ∨ de.sheet_width < shape.x + shape.getLargura)

/-- Embeds the second out-of-sheet test in `evaluate`:
`shape['y'] < 0 or shape['y'] + shape.get('altura', shape.get('r', 0) * 2) > self.sheet_height`. -/
def outOfSheetY (de : DifferentialEvolution) (shape : Shape) : Bool :=
  decide (shape.y < 0 ∨ de.sheet_height < shape.y + shape.getAltura)

/-- The containment predicate the code actually enforces (the conjunction of
the negations of the two penalty conditions of `evaluate`): the reference
point is at least `0` and reference point plus extent is at most the sheet
dimension, on both axes, for every kind of shape (for circles the extent is
`2r` measured from `x`, not a disk around `(x, y)`). -/
def fits_in_sheet (de : DifferentialEvolution) (shape : Shape) : Bool :=
  !outOfSheetX de shape && !outOfSheetY de shape

/-- Modelled from the spec (for comparison with the code): "true iff the
shape's full extent lies within `[0, sheet_width] × [0, sheet_height]`. For
rectangular/diamond shapes extent is `[x, x+width] × [y, y+height]`; for
circular shapes it is the disk of radius `r` centered at `(x,y)`." -/
def fits_in_sheet_spec (de : DifferentialEvolution) (shape : Shape) : Bool :=
  if shape.tipo = "circular" then
    decide (0 ≤ shape.x - shape.r.getD 0 ∧ shape.x + shape.r.getD 0 ≤ de.sheet_width ∧
      0 ≤ shape.y - shape.r.getD 0 ∧ shape.y + shape.r.getD 0 ≤ de.sheet_height)
  else
    decide (0 ≤ shape.x ∧ shape.x + shape.largura.getD 0 ≤ de.sheet_width ∧
      0 ≤ shape.y ∧ shape.y + shape.altura.getD 0 ≤ de.sheet_height)

/-- Embeds `DifferentialEvolution.overlaps`. The circle–circle branch compares
`np.sqrt ((x1-x2)^2 + (y1-y2)^2) < r1 + r2`; since the radicand is a sum of
squares this holds iff `0 < r1 + r2` and the radicand is `< (r1+r2)^2`, which
is the rational test embedded here. The both-non-circular branch is the
axis-aligned box separation test (direct key access `['largura']`/`['altura']`
in Python, embedded with `Option.getD 0`). Any mixed pair falls through to
`return False`. -/
def overlaps (shape1 shape2 : Shape) : Bool :=
  if shape1.tipo = "circular" ∧ shape2.tipo = "circular" then
    decide (0 < shape1.r.getD 0 + shape2.r.getD 0 ∧
      (shape1.x - shape2.x) ^ 2 + (shape1.y - shape2.y) ^ 2 <
        (shape1.r.getD 0 + shape2.r.getD 0) ^ 2)
  else if shape1.tipo ≠ "circular" ∧ shape2.tipo ≠ "circular" then
    !decide (shape1.x + shape1.largura.getD 0 ≤ shape2.x ∨
      shape2.x + shape2.largura.getD 0 ≤ shape1.x ∨
      shape1.y + shape1.altura.getD 0 ≤ shape2.y ∨
      shape2.y + shape2.altura.getD 0 ≤ shape1.y)
  else
    false

/-- Modelled from the spec (for comparison with the code's mixed branch):
"circle–rectangle (mixed): true iff the distance from the circle's center to
the closest point on the rectangle's boundary/interior is less than the
circle's radius (clamp-to-box-then-distance test)". The closest point clamps
the center into the box `[x, x+width] × [y, y+height]`; the square-root-free
test `0 < r ∧ d2 < r^2` is equivalent since `d2 ≥ 0`. -/
def mixedOverlapSpec (circ box : Shape) : Bool :=
  let cx := min (max circ.x box.x) (box.x + box.largura.getD 0)
  let cy := min (max circ.y box.y) (box.y + box.altura.getD 0)
  let d2 := (circ.x - cx) ^ 2 + (circ.y - cy) ^ 2
  decide (0 < circ.r.getD 0 ∧ d2 < circ.r.getD 0 ^ 2)

/-- The inner `for j, other in enumerate(candidate)` loop of `evaluate` for a
fixed outer index `i`: adds `50` for every `j ≠ i` whose shape overlaps the
shape at `i`. -/
def overlapPenalty (candidate : List Shape) (i : ℕ) : ℤ :=
  ((List.range candidate.length).map (fun j =>
    if decide (i ≠ j) && overlaps (candidate.getD i default) (candidate.getD j default)
    then (50 : ℤ) else 0)).sum

/-- Embeds `DifferentialEvolution.evaluate`: for every shape, `+100` when its
x-interval leaves the sheet, `+100` when its y-interval leaves the sheet, and
`+50` for every ordered pair `(i, j)`, `i ≠ j`, of overlapping shapes. -/
def evaluate (de : DifferentialEvolution) (candidate : List Shape) : ℤ :=
  ((List.range candidate.length).map (fun i =>
    (if outOfSheetX de (candidate.getD i default) then (100 : ℤ) else 0)
    + (if outOfSheetY de (candidate.getD i default) then (100 : ℤ) else 0)
    + overlapPenalty candidate i)).sum

/-- Number of shapes of the candidate whose x-interval check fails. -/
def xViolations (de : DifferentialEvolution) (candidate : List Shape) : ℕ :=
  candidate.countP (fun s => outOfSheetX de s)

/-- Number of shapes of the candidate whose y-interval check fails. -/
def yViolations (de : DifferentialEvolution) (candidate : List Shape) : ℕ :=
  candidate.countP (fun s => outOfSheetY de s)

/-- Number of ordered pairs `(i, j)` of distinct positions of the candidate
whose shapes overlap. -/
def orderedOverlapCount (candidate : List Shape) : ℕ :=
  ((List.range candidate.length).map (fun i =>
    (List.range candidate.length).countP (fun j =>
      decide (i ≠ j) && overlaps (candidate.getD i default) (candidate.getD j default)))).sum

/-- Picks one element of a list from a raw seed (index taken modulo the
length); on the empty list it returns the default `0`, a case Python's
`random.sample` can never reach without raising. -/
def pick (l : List ℕ) (s : ℕ) : ℕ := l.getD (s % l.length) 0

/-- Embeds `random.sample(l, 3)`: three elements drawn without replacement,
each selection driven by one raw seed. Python raises `ValueError` when fewer
than three elements remain; this total model is meaningful (and provably
returns three distinct members) whenever `3 ≤ l.length`. -/
def sample3 (l : List ℕ) (s1 s2 s3 : ℕ) : ℕ × ℕ × ℕ :=
  let a := pick l s1
  let l2 := l.erase a
  let b := pick l2 s2
  let l3 := l2.erase b
  (a, b, pick l3 s3)

/-- Embeds `DifferentialEvolution.mutate`: the donor indices `a, b, c` are
sampled from all population indices except `target_index`; each mutant piece
copies the static input piece and receives
`min(max(pop[a][i].x + 0.8*(pop[b][i].x - pop[c][i].x), 0), sheet_width - extent)`
(and the analogous `y`). Note the record update sets only `x` and `y`, so the
mutant's `rotacao` is whatever the static input piece carries. -/
def mutate (de : DifferentialEvolution) (pop : List (List Shape))
    (target_index : ℕ) (s1 s2 s3 : ℕ) : List Shape :=
  let idxs := (List.range de.pop_size).filter (fun idx => idx ≠ target_index)
  let abc := sample3 idxs s1 s2 s3
  (List.range de.recortes_disponiveis.length).map (fun i =>
    let recorte := de.recortes_disponiveis.getD i default
    let sa := (pop.getD abc.1 []).getD i default
    let sb := (pop.getD abc.2.1 []).getD i default
    let sc := (pop.getD abc.2.2 []).getD i default
    let new_x := min (max (sa.x + (4 / 5 : ℚ) * (sb.x - sc.x)) 0)
      (de.sheet_width - recorte.getLargura)
    let new_y := min (max (sa.y + (4 / 5 : ℚ) * (sb.y - sc.y)) 0)
      (de.sheet_height - recorte.getAltura)
    { recorte with x := new_x, y := new_y })

/-- Embeds `DifferentialEvolution.crossover`: per index, take the mutant's
piece when the `random.random()` draw (`rs i`) is `< 0.9`, else the target's. -/
def crossover (target mutant : List Shape) (rs : ℕ → ℚ) : List Shape :=
  (List.range target.length).map (fun i =>
    if rs i < (9 / 10 : ℚ) then mutant.getD i default else target.getD i default)

/-- Embeds `DifferentialEvolution.select`: the trial replaces the target only
when its penalty is strictly lower. -/
def select (de : DifferentialEvolution) (target trial : List Shape) : List Shape :=
  if evaluate de trial < evaluate de target then trial else target

/-- The raw random draws consumed for one population index of one generation:
three sampling seeds for `mutate` and the per-index `random.random()` draws
for `crossover`. -/
structure Draws where
  s1 : ℕ
  s2 : ℕ
  s3 : ℕ
  rs : ℕ → ℚ

/-- One generation of `DifferentialEvolution.run`: builds `new_population`
entirely from the previous population `pop` (which `self.population` still
holds throughout the inner loop), applying mutate, crossover and select at
every index. -/
def generationStep (de : DifferentialEvolution) (pop : List (List Shape))
    (d : ℕ → Draws) : List (List Shape) :=
  (List.range de.pop_size).map (fun i =>
    let target := pop.getD i []
    let mutant := mutate de pop i (d i).s1 (d i).s2 (d i).s3
    let trial := crossover target mutant (d i).rs
    select de target trial)

/-- The population after the `for _ in range(self.max_iter)` loop of `run`:
`max_iter` generations applied to the starting population (`Int.toNat` embeds
Python's `range`, which is empty for negative arguments). -/
def runPop (de : DifferentialEvolution) (pop : List (List Shape))
    (draws : ℕ → ℕ → Draws) : List (List Shape) :=
  (List.range de.max_iter.toNat).foldl (fun p g => generationStep de p (draws g)) pop

/-- Helper for `pythonMin`: scans the tail keeping the current best, replacing
it only on a strictly smaller key, exactly as Python's `min` does. -/
def pyMinAux {α : Type} (f : α → ℤ) (best : α) : List α → α
  | [] => best
  | a :: l => if f a < f best then pyMinAux f a l else pyMinAux f best l

/-- Embeds Python `min(l, key=f)`: the first element attaining the minimal
key; `none` on the empty list, where Python raises `ValueError`. -/
def pythonMin {α : Type} (f : α → ℤ) : List α → Option α
  | [] => none
  | a :: l => some (pyMinAux f a l)

/-- Embeds `DifferentialEvolution.run`: after `max_iter` generations, return
`min(self.population, key=self.evaluate)`. -/
def run (de : DifferentialEvolution) (pop : List (List Shape))
    (draws : ℕ → ℕ → Draws) : Option (List Shape) :=
  pythonMin (evaluate de) (runPop de pop draws)

/-! Helper lemmas about the list combinators used by the embedding. -/

theorem getD_map_range {α : Type} (f : ℕ → α) (n i : ℕ) (d : α) (h : i < n) :
    (((List.range n).map f).getD i d) = f i := by
  rw [List.getD_eq_getElem _ _ (by simpa using h)]
  simp

theorem map_getD_range {α : Type} (l : List α) (d : α) :
    (List.range l.length).map (fun i => l.getD i d) = l := by
  apply List.ext_getElem
  · simp
  · intro i h1 h2
    simp only [List.getElem_map, List.getElem_range]
    exact List.getD_eq_getElem _ _ h2

theorem countP_getD_range {α : Type} (l : List α) (d : α) (p : α → Bool) :
    (List.range l.length).countP (fun i => p (l.getD i d)) = l.countP p := by
  conv_rhs => rw [← map_getD_range l d]
  rw [List.countP_map]
  rfl

theorem sum_map_ite_count {α : Type} (l : List α) (p : α → Bool) (k : ℤ) :
    (l.map (fun a => if p a then k else 0)).sum = k * (l.countP p : ℤ) := by
  induction l with
  | nil => simp
  | cons a l ih =>
    by_cases h : p a
    · simp [List.countP_cons, h, ih]
      ring
    · simp [List.countP_cons, h, ih]

theorem sum_map_add_split {α : Type} (l : List α) (f g : α → ℤ) :
    (l.map (fun a => f a + g a)).sum = (l.map f).sum + (l.map g).sum := by
  induction l with
  | nil => simp
  | cons a l ih => simp [ih]; ring

theorem getD_mem {α : Type} (l : List α) (i : ℕ) (d : α) (h : i < l.length) :
    l.getD i d ∈ l := by
  rw [List.getD_eq_getElem _ _ h]
  exact List.getElem_mem h

theorem overlapPenalty_eq_count (c : List Shape) (i : ℕ) :
    overlapPenalty c i = 50 * (((List.range c.length).countP (fun j =>
      decide (i ≠ j) && overlaps (c.getD i default) (c.getD j default))) : ℤ) := by
  unfold overlapPenalty
  exact sum_map_ite_count _ _ _

theorem evaluate_eq_counts (de : DifferentialEvolution) (c : List Shape) :
    evaluate de c = 100 * (xViolations de c : ℤ) + 100 * (yViolations de c : ℤ)
      + 50 * (orderedOverlapCount c : ℤ) := by
  unfold evaluate
  rw [show (fun i => (if outOfSheetX de (c.getD i default) then (100 : ℤ) else 0)
        + (if outOfSheetY de (c.getD i default) then (100 : ℤ) else 0)
        + overlapPenalty c i)
      = (fun i => ((if outOfSheetX de (c.getD i default) then (100 : ℤ) else 0)
        + (if outOfSheetY de (c.getD i default) then (100 : ℤ) else 0))
        + overlapPenalty c i) from rfl]
  rw [sum_map_add_split, sum_map_add_split, sum_map_ite_count, sum_map_ite_count]
  rw [countP_getD_range, countP_getD_range]
  have h3 : ((List.range c.length).map (fun i => overlapPenalty c i)).sum
      = 50 * (orderedOverlapCount c : ℤ) := by
    have hfun : (fun i => overlapPenalty c i)
        = (fun i => (50 : ℤ) * (((List.range c.length).countP (fun j =>
            decide (i ≠ j) && overlaps (c.getD i default) (c.getD j default))) : ℤ)) := by
      funext i
      exact overlapPenalty_eq_count c i
    rw [hfun, List.sum_map_mul_left, orderedOverlapCount, Nat.cast_list_sum, List.map_map]
    rfl
  rw [h3]
  rfl

theorem orderedOverlapCount_eq_zero (c : List Shape) :
    orderedOverlapCount c = 0 ↔
      ∀ i j, i < c.length → j < c.length → i ≠ j →
        overlaps (c.getD i default) (c.getD j default) = false := by
  unfold orderedOverlapCount
  rw [List.sum_eq_zero_iff]
  constructor
  · intro h i j hi hj hij
    have hmem : ((List.range c.length).countP (fun j =>
        decide (i ≠ j) && overlaps (c.getD i default) (c.getD j default)))
        ∈ (List.range c.length).map (fun i => (List.range c.length).countP (fun j =>
          decide (i ≠ j) && overlaps (c.getD i default) (c.getD j default))) :=
      List.mem_map_of_mem _ (List.mem_range.2 hi)
    have hz := h _ hmem
    rw [List.countP_eq_zero] at hz
    have := hz j (List.mem_range.2 hj)
    simpa [hij] using this
  · intro h x hx
    rcases List.mem_map.1 hx with ⟨i, hi, rfl⟩
    rw [List.countP_eq_zero]
    intro j hj
    simp only [Bool.and_eq_true, decide_eq_true_eq, not_and]
    intro hij
    simpa using h i j (List.mem_range.1 hi) (List.mem_range.1 hj) hij

theorem fits_in_sheet_iff (de : DifferentialEvolution) (s : Shape) :
    fits_in_sheet de s = true ↔
      (outOfSheetX de s = false ∧ outOfSheetY de s = false) := by
  simp [fits_in_sheet]

/-- Concrete circular shape with radius `rr` and reference point `(xx, yy)`. -/
def circAt (rr xx yy : ℚ) : Shape := ⟨"circular", none, none, some rr, xx, yy, none⟩

/-- Concrete rectangular shape with size `w × h` and reference point `(xx, yy)`. -/
def rectAt (w h xx yy : ℚ) : Shape := ⟨"retangular", some w, some h, none, xx, yy, none⟩

/-- C10: for every candidate, `evaluate` equals exactly 100 times the number of
(shape, axis) out-of-bounds violations (the x-interval and y-interval checks
are penalized independently, so a shape out of bounds on both axes contributes
200) plus 50 times the number of ordered pairs `(i, j)`, `i ≠ j`, whose shapes
overlap (so, `overlaps` being symmetric, each unordered overlapping pair
contributes exactly 100). -/
theorem evaluate_weighted_counts (de : DifferentialEvolution) (c : List Shape) :
    evaluate de c = 100 * ((xViolations de c + yViolations de c : ℕ) : ℤ)
      + 50 * (orderedOverlapCount c : ℤ) := by
  rw [evaluate_eq_counts]
  push_cast
  ring

/-- C1 (amended): `evaluate` is always nonnegative, and it returns exactly `0`
iff every shape of the candidate passes the code's own in-sheet check
`fits_in_sheet` (whose circular extent is the interval `[x, x + 2r]` measured
from the reference point — not the disk of radius `r` centered at `(x, y)`
that the spec describes) and no pair of shapes at distinct positions
overlaps. -/
theorem evaluate_nonneg_and_zero_iff (de : DifferentialEvolution) (c : List Shape) :
    0 ≤ evaluate de c ∧
    (evaluate de c = 0 ↔
      ((∀ s ∈ c, fits_in_sheet de s = true) ∧
       ∀ i j, i < c.length → j < c.length → i ≠ j →
        overlaps (c.getD i default) (c.getD j default) = false)) := by
  have hev := evaluate_eq_counts de c
  constructor
  · rw [hev]
    positivity
  · rw [hev]
    constructor
    · intro h
      have h0 : xViolations de c = 0 ∧ yViolations de c = 0 ∧
          orderedOverlapCount c = 0 := by omega
      refine ⟨?_, (orderedOverlapCount_eq_zero c).1 h0.2.2⟩
      intro s hs
      rw [fits_in_sheet_iff]
      have hx := (List.countP_eq_zero.1 h0.1) s hs
      have hy := (List.countP_eq_zero.1 h0.2.1) s hs
      constructor
      · simpa using hx
      · simpa using hy
    · intro ⟨hfit, hover⟩
      have hx : xViolations de c = 0 := by
        rw [xViolations, List.countP_eq_zero]
        intro s hs
        have := (fits_in_sheet_iff de s).1 (hfit s hs)
        simp [this.1]
      have hy : yViolations de c = 0 := by
        rw [yViolations, List.countP_eq_zero]
        intro s hs
        have := (fits_in_sheet_iff de s).1 (hfit s hs)
        simp [this.2]
      have ho : orderedOverlapCount c = 0 := (orderedOverlapCount_eq_zero c).2 hover
      rw [hx, hy, ho]
      norm_num

/-- C1 witness: the amended claim applied to a concrete sheet and candidate. -/
theorem evaluate_nonneg_and_zero_iff_w :
    0 ≤ evaluate ⟨4, 0, 10, 10, [circAt 1 0 0]⟩ [circAt 1 0 0] :=
  (evaluate_nonneg_and_zero_iff ⟨4, 0, 10, 10, [circAt 1 0 0]⟩ [circAt 1 0 0]).1

/-- C1 counterexample: a radius-1 circle whose reference point is the origin.
Its disk extends to `x = -1 < 0`, so the spec's `fits_in_sheet` (disk extent)
is false for it, yet the code's `evaluate` returns exactly `0` for the
candidate consisting of that one shape. -/
theorem evaluate_zero_with_disk_outside :
    evaluate ⟨4, 0, 10, 10, [circAt 1 0 0]⟩ [circAt 1 0 0] = 0 ∧
    fits_in_sheet_spec ⟨4, 0, 10, 10, [circAt 1 0 0]⟩ (circAt 1 0 0) = false := by
  constructor
  · norm_num [evaluate, overlapPenalty, outOfSheetX, outOfSheetY, circAt,
      Shape.getLargura, Shape.getAltura, List.range_succ, List.range_zero]
  · norm_num [fits_in_sheet_spec, circAt]

/-- C8: `overlaps` is symmetric: for every pair of shapes, of any kinds,
`overlaps a b` returns the same boolean as `overlaps b a`. -/
theorem overlaps_symm (s1 s2 : Shape) : overlaps s1 s2 = overlaps s2 s1 := by
  unfold overlaps
  by_cases h1 : s1.tipo = "circular" <;> by_cases h2 : s2.tipo = "circular"
  · rw [if_pos ⟨h1, h2⟩, if_pos ⟨h2, h1⟩, decide_eq_decide]
    have e1 : s2.r.getD 0 + s1.r.getD 0 = s1.r.getD 0 + s2.r.getD 0 := by ring
    have e2 : (s2.x - s1.x) ^ 2 + (s2.y - s1.y) ^ 2
        = (s1.x - s2.x) ^ 2 + (s1.y - s2.y) ^ 2 := by ring
    rw [e1, e2]
  · rw [if_neg (fun hc => h2 hc.2), if_neg (fun hc => hc.1 h1),
      if_neg (fun hc => h2 hc.1), if_neg (fun hc => hc.2 h1)]
  · rw [if_neg (fun hc => h1 hc.1), if_neg (fun hc => hc.2 h2),
      if_neg (fun hc => h1 hc.2), if_neg (fun hc => hc.1 h2)]
  · rw [if_neg (fun hc => h1 hc.1), if_pos ⟨h1, h2⟩,
      if_neg (fun hc => h2 hc.1), if_pos ⟨h2, h1⟩]
    congr 1
    rw [decide_eq_decide]
    tauto

/-- C2 counterexample: a circle of radius 5 centered at the origin and a unit
box anchored at the origin: the clamp-to-box distance is `0 < 5`, so the
claimed predicate is true, but the code's `overlaps` returns false (its mixed
branch is `return False`). -/
theorem mixed_contact_not_detected :
    overlaps (circAt 5 0 0) (rectAt 1 1 0 0) = false ∧
    mixedOverlapSpec (circAt 5 0 0) (rectAt 1 1 0 0) = true := by
  constructor
  · rfl
  · norm_num [mixedOverlapSpec, circAt, rectAt]

/-- C2 (amended): for every pair of shapes of which exactly one is circular,
`overlaps` returns false, whatever the geometry: the code has no mixed
circle–box test and falls through to `return False`. -/
theorem overlaps_mixed_false (s1 s2 : Shape)
    (h : (s1.tipo = "circular" ∧ ¬ s2.tipo = "circular") ∨
         (¬ s1.tipo = "circular" ∧ s2.tipo = "circular")) :
    overlaps s1 s2 = false := by
  unfold overlaps
  rcases h with ⟨h1, h2⟩ | ⟨h1, h2⟩
  · rw [if_neg (fun hc => h2 hc.2), if_neg (fun hc => hc.1 h1)]
  · rw [if_neg (fun hc => h1 hc.1), if_neg (fun hc => hc.2 h2)]

/-- C2 witness: the amended claim applied to a concrete mixed pair. -/
theorem overlaps_mixed_false_w :
    overlaps (circAt 5 0 0) (rectAt 2 3 7 7) = false :=
  overlaps_mixed_false (circAt 5 0 0) (rectAt 2 3 7 7) (by decide)

/-- C4 counterexample: a single circle of radius `r = 1` at `x = r, y = r` on
a `2r × 2r` sheet. The claim says it fits and the candidate evaluates to `0`;
the code checks `x + 2r ≤ sheet_width` (3 > 2) on both axes and returns
penalty 200. -/
theorem circle_boundary_claim_fails :
    evaluate ⟨4, 0, 2, 2, [circAt 1 1 1]⟩ [circAt 1 1 1] = 200 ∧
    fits_in_sheet ⟨4, 0, 2, 2, [circAt 1 1 1]⟩ (circAt 1 1 1) = false := by
  constructor
  · norm_num [evaluate, overlapPenalty, outOfSheetX, outOfSheetY, circAt,
      Shape.getLargura, Shape.getAltura, List.range_succ, List.range_zero]
  · norm_num [fits_in_sheet, outOfSheetX, outOfSheetY, circAt,
      Shape.getLargura, Shape.getAltura]

/-- C4 (amended): a single circular shape of radius `r > 0` placed at
`x = r, y = r` passes the code's in-sheet check, and the candidate consisting
of it evaluates to penalty 0, provided the sheet measures at least `3r` in
each dimension (the code treats the circle's x-extent as `[x, x + 2r]`). -/
theorem single_circle_zero_of_3r (de : DifferentialEvolution) (rr : ℚ) (hr : 0 < rr)
    (hw : 3 * rr ≤ de.sheet_width) (hh : 3 * rr ≤ de.sheet_height) :
    fits_in_sheet de (circAt rr rr rr) = true ∧
    evaluate de [circAt rr rr rr] = 0 := by
  have hx : outOfSheetX de (circAt rr rr rr) = false := by
    simp only [outOfSheetX, circAt, Shape.getLargura, Option.getD_none, Option.getD_some,
      decide_eq_false_iff_not]
    push_neg
    constructor <;> linarith
  have hy : outOfSheetY de (circAt rr rr rr) = false := by
    simp only [outOfSheetY, circAt, Shape.getAltura, Option.getD_none, Option.getD_some,
      decide_eq_false_iff_not]
    push_neg
    constructor <;> linarith
  refine ⟨by simp [fits_in_sheet, hx, hy], ?_⟩
  simp [evaluate, overlapPenalty, List.range_succ, List.range_zero, hx, hy]

/-- C4 witness: radius 1 on a 3×3 sheet. -/
theorem single_circle_zero_of_3r_w :
    fits_in_sheet ⟨4, 0, 3, 3, [circAt 1 1 1]⟩ (circAt 1 1 1) = true ∧
    evaluate ⟨4, 0, 3, 3, [circAt 1 1 1]⟩ [circAt 1 1 1] = 0 :=
  single_circle_zero_of_3r ⟨4, 0, 3, 3, [circAt 1 1 1]⟩ 1 (by norm_num) (by norm_num) (by norm_num)

/-- Configuration used by the C3 theorems: one piece wider than the sheet
(30 > 20), a population of one, and a negative iteration count. -/
def deC3 : DifferentialEvolution := ⟨1, -1, 20, 20, [rectAt 30 5 0 0]⟩

/-- C3 counterexample: on `deC3` — oversize piece, `pop_size = 1 < 4`,
`max_iter = -1 < 0` — construction raises nothing (the code defines no
`ConfigurationError` and validates nothing): `initialize_population` returns a
normal population, and with raw draw `u = 1` the sampled `x` is
`20 - 30 = -10 < 0`, outside the claimed (empty) sampling interval. -/
theorem initialize_oversize_no_error :
    initialize_population deC3 (fun _ _ => 1) (fun _ _ => 1) (fun _ _ => 0)
      = [[⟨"retangular", some 30, some 5, none, -10, 15, some 0⟩]] ∧
    (⟨"retangular", some 30, some 5, none, -10, 15, some 0⟩ : Shape).x < 0 := by
  constructor
  · norm_num [initialize_population, deC3, rectAt, uniform,
      Shape.getLargura, Shape.getAltura, List.range_succ, List.range_zero]
  · norm_num

/-- C3 (amended): construction performs no validation and can never raise:
for every configuration (oversize pieces, `pop_size < 4` and `max_iter < 0`
included) initialization succeeds, returning `pop_size` candidates, each with
one shape per input piece; piece `k` of candidate `p` copies the input piece
and is placed at `x = uniform(0, sheet_width - extent_x)` and
`y = uniform(0, sheet_height - extent_y)` (an interval that is only
meaningful when `extent ≤ sheet` — for an oversize piece the draw is
negative), with rotation drawn from `{0, 90}`. -/
theorem initialize_population_formula (de : DifferentialEvolution)
    (ux uy : ℕ → ℕ → ℚ) (urot : ℕ → ℕ → ℕ) (p k : ℕ)
    (hp : p < de.pop_size) (hk : k < de.recortes_disponiveis.length) :
    (initialize_population de ux uy urot).length = de.pop_size ∧
    ((initialize_population de ux uy urot).getD p []).length
      = de.recortes_disponiveis.length ∧
    ((initialize_population de ux uy urot).getD p []).getD k default
      = { de.recortes_disponiveis.getD k default with
          x := uniform 0
            (de.sheet_width - (de.recortes_disponiveis.getD k default).getLargura) (ux p k),
          y := uniform 0
            (de.sheet_height - (de.recortes_disponiveis.getD k default).getAltura) (uy p k),
          rotacao := some ([(0 : ℚ), 90].getD (urot p k % 2) 0) } := by
  unfold initialize_population
  refine ⟨by simp, ?_, ?_⟩
  · rw [getD_map_range _ _ _ _ hp]
    simp
  · rw [getD_map_range _ _ _ _ hp, getD_map_range _ _ _ _ hk]

/-- C3 witness: the amended claim applied to `deC3`. -/
theorem initialize_population_formula_w :
    (initialize_population deC3 (fun _ _ => 1) (fun _ _ => 1) (fun _ _ => 0)).length
      = deC3.pop_size :=
  (initialize_population_formula deC3 (fun _ _ => 1) (fun _ _ => 1) (fun _ _ => 0) 0 0
    (by decide) (by decide)).1

/-- C5: for every generation transition and every population index `i`, the
new entry at `i` is the trial candidate (crossover of the target with the
mutant) exactly when its penalty is strictly lower than the target's penalty,
and the unchanged target otherwise (ties favor the incumbent); consequently
the penalty of slot `i` never increases from one generation to the next. -/
theorem selection_slot_monotone (de : DifferentialEvolution) (pop : List (List Shape))
    (d : ℕ → Draws) (i : ℕ) (h : i < de.pop_size) :
    (generationStep de pop d).getD i [] =
      (if evaluate de (crossover (pop.getD i [])
            (mutate de pop i (d i).s1 (d i).s2 (d i).s3) (d i).rs)
          < evaluate de (pop.getD i [])
       then crossover (pop.getD i []) (mutate de pop i (d i).s1 (d i).s2 (d i).s3) (d i).rs
       else pop.getD i []) ∧
    evaluate de ((generationStep de pop d).getD i []) ≤ evaluate de (pop.getD i []) := by
  have hg : (generationStep de pop d).getD i []
      = select de (pop.getD i [])
          (crossover (pop.getD i []) (mutate de pop i (d i).s1 (d i).s2 (d i).s3) (d i).rs) := by
    unfold generationStep
    exact getD_map_range _ _ _ _ h
  constructor
  · rw [hg]
    rfl
  · rw [hg]
    by_cases hlt : evaluate de (crossover (pop.getD i [])
        (mutate de pop i (d i).s1 (d i).s2 (d i).s3) (d i).rs) < evaluate de (pop.getD i [])
    · simp only [select, if_pos hlt]
      exact le_of_lt hlt
    · simp only [select, if_neg hlt]
      exact le_refl _

/-- Concrete configuration for the C5 witness. -/
def deW5 : DifferentialEvolution := ⟨1, 1, 10, 10, []⟩

/-- Concrete draws for the C5 witness. -/
def drawsW5 : ℕ → Draws := fun _ => ⟨0, 0, 0, fun _ => 1⟩

/-- C5 witness: slot monotonicity at a concrete configuration. -/
theorem selection_slot_monotone_w :
    evaluate deW5 ((generationStep deW5 [[]] drawsW5).getD 0 [])
      ≤ evaluate deW5 (([([] : List Shape)]).getD 0 []) :=
  (selection_slot_monotone deW5 [[]] drawsW5 0 (by decide)).2

theorem pyMinAux_decomp {α : Type} (f : α → ℤ) (l : List α) :
    ∀ best : α, ∃ l1 l2,
      best :: l = l1 ++ pyMinAux f best l :: l2 ∧
      (∀ x ∈ l1, f (pyMinAux f best l) < f x) ∧
      (∀ x ∈ l2, f (pyMinAux f best l) ≤ f x) := by
  induction l with
  | nil =>
    intro best
    exact ⟨[], [], rfl, by simp, by simp⟩
  | cons a l ih =>
    intro best
    by_cases h : f a < f best
    · obtain ⟨l1, l2, hdec, hlt, hle⟩ := ih a
      have hred : pyMinAux f best (a :: l) = pyMinAux f a l := by
        simp [pyMinAux, h]
      rw [hred]
      have hres_le : f (pyMinAux f a l) ≤ f a := by
        cases l1 with
        | nil =>
          simp only [List.nil_append] at hdec
          injection hdec with h1 h2
          rw [← h1]
        | cons y ys =>
          simp only [List.cons_append] at hdec
          injection hdec with h1 h2
          have hy := hlt y (by simp)
          rw [← h1] at hy
          exact le_of_lt hy
      refine ⟨best :: l1, l2, ?_, ?_, hle⟩
      · rw [List.cons_append, ← hdec]
      · intro x hx
        rcases List.mem_cons.1 hx with rfl | hx2
        · exact lt_of_le_of_lt hres_le h
        · exact hlt x hx2
    · obtain ⟨l1, l2, hdec, hlt, hle⟩ := ih best
      have hred : pyMinAux f best (a :: l) = pyMinAux f best l := by
        simp [pyMinAux, h]
      rw [hred]
      cases l1 with
      | nil =>
        simp only [List.nil_append] at hdec
        injection hdec with h1 h2
        refine ⟨[], a :: l2, ?_, by simp, ?_⟩
        · rw [List.nil_append, ← h1, ← h2]
        · intro x hx
          rcases List.mem_cons.1 hx with rfl | hx2
          · rw [← h1]
            exact not_lt.1 h
          · exact hle x hx2
      | cons y ys =>
        simp only [List.cons_append] at hdec
        injection hdec with h1 h2
        refine ⟨best :: a :: ys, l2, ?_, ?_, hle⟩
        · simp only [List.cons_append]
          rw [← h2]
        · intro x hx
          have hbest : f (pyMinAux f best l) < f best := by
            have := hlt y (by simp)
            rw [← h1] at this
            exact this
          rcases List.mem_cons.1 hx with rfl | hx2
          · exact hbest
          · rcases List.mem_cons.1 hx2 with rfl | hx3
            · exact lt_of_lt_of_le hbest (not_lt.1 h)
            · exact hlt x (by simp [hx3])

theorem generationStep_length (de : DifferentialEvolution) (pop : List (List Shape))
    (d : ℕ → Draws) : (generationStep de pop d).length = de.pop_size := by
  simp [generationStep]

theorem runPop_length (de : DifferentialEvolution) (draws : ℕ → ℕ → Draws)
    (pop : List (List Shape)) (h : pop.length = de.pop_size) :
    (runPop de pop draws).length = de.pop_size := by
  unfold runPop
  generalize List.range de.max_iter.toNat = gs
  induction gs generalizing pop with
  | nil => simpa
  | cons g gs ih =>
    simp only [List.foldl_cons]
    exact ih _ (generationStep_length de pop (draws g))

/-- C6: after exactly `max_iter` generation transitions, `run` returns the
member of the final population with minimal penalty, ties broken by first
occurrence in population order (every earlier member has strictly larger
penalty, every later one at least as large); and when `max_iter ≤ 0` the
final population is the initial one, so the minimum is taken over the initial
population. -/
theorem run_returns_first_min (de : DifferentialEvolution) (pop : List (List Shape))
    (draws : ℕ → ℕ → Draws) (hlen : pop.length = de.pop_size) (hpos : 0 < de.pop_size) :
    (∃ res l1 l2,
      run de pop draws = some res ∧
      runPop de pop draws = l1 ++ res :: l2 ∧
      (∀ c ∈ l1, evaluate de res < evaluate de c) ∧
      (∀ c ∈ l2, evaluate de res ≤ evaluate de c)) ∧
    (de.max_iter ≤ 0 → runPop de pop draws = pop) := by
  have hfin : (runPop de pop draws).length = de.pop_size := runPop_length de draws pop hlen
  constructor
  · obtain ⟨a, l, hal⟩ : ∃ a l, runPop de pop draws = a :: l := by
      cases hm : runPop de pop draws with
      | nil =>
        rw [hm] at hfin
        simp at hfin
        omega
      | cons a l => exact ⟨a, l, rfl⟩
    obtain ⟨l1, l2, hdec, hlt, hle⟩ := pyMinAux_decomp (evaluate de) l a
    refine ⟨pyMinAux (evaluate de) a l, l1, l2, ?_, ?_, hlt, hle⟩
    · unfold run
      rw [hal]
      rfl
    · rw [hal, hdec]
  · intro hneg
    unfold runPop
    rw [Int.toNat_of_nonpos hneg]
    rfl

/-- Concrete configuration for the C6 witness. -/
def deW6 : DifferentialEvolution := ⟨1, 0, 10, 10, []⟩

/-- Concrete draws for the C6 witness. -/
def drawsW6 : ℕ → ℕ → Draws := fun _ _ => ⟨0, 0, 0, fun _ => 0⟩

/-- C6 witness: the claim applied to a concrete one-member population. -/
theorem run_returns_first_min_w :
    ∃ res l1 l2,
      run deW6 [[]] drawsW6 = some res ∧
      runPop deW6 [[]] drawsW6 = l1 ++ res :: l2 ∧
      (∀ c ∈ l1, evaluate deW6 res < evaluate deW6 c) ∧
      (∀ c ∈ l2, evaluate deW6 res ≤ evaluate deW6 c) :=
  (run_returns_first_min deW6 [[]] drawsW6 (by decide) (by decide)).1

theorem pick_mem (l : List ℕ) (s : ℕ) (h : 0 < l.length) : pick l s ∈ l := by
  unfold pick
  rw [List.getD_eq_getElem _ _ (Nat.mod_lt _ h)]
  exact List.getElem_mem _

theorem sample3_spec (l : List ℕ) (hnd : l.Nodup) (h3 : 3 ≤ l.length) (s1 s2 s3 : ℕ) :
    ((sample3 l s1 s2 s3).1 ∈ l ∧ (sample3 l s1 s2 s3).2.1 ∈ l ∧
      (sample3 l s1 s2 s3).2.2 ∈ l) ∧
    (sample3 l s1 s2 s3).1 ≠ (sample3 l s1 s2 s3).2.1 ∧
    (sample3 l s1 s2 s3).1 ≠ (sample3 l s1 s2 s3).2.2 ∧
    (sample3 l s1 s2 s3).2.1 ≠ (sample3 l s1 s2 s3).2.2 := by
  simp only [sample3]
  have h0 : 0 < l.length := by omega
  have ha : pick l s1 ∈ l := pick_mem l s1 h0
  have hlen2 : (l.erase (pick l s1)).length = l.length - 1 := List.length_erase_of_mem ha
  have h02 : 0 < (l.erase (pick l s1)).length := by omega
  have hb : pick (l.erase (pick l s1)) s2 ∈ l.erase (pick l s1) := pick_mem _ s2 h02
  have hbb := hnd.mem_erase_iff.1 hb
  have hnd2 : (l.erase (pick l s1)).Nodup := hnd.erase _
  have hlen3 : ((l.erase (pick l s1)).erase (pick (l.erase (pick l s1)) s2)).length
      = (l.erase (pick l s1)).length - 1 := List.length_erase_of_mem hb
  have h03 : 0 < ((l.erase (pick l s1)).erase (pick (l.erase (pick l s1)) s2)).length := by
    omega
  have hc : pick ((l.erase (pick l s1)).erase (pick (l.erase (pick l s1)) s2)) s3
      ∈ (l.erase (pick l s1)).erase (pick (l.erase (pick l s1)) s2) := pick_mem _ s3 h03
  have hcc := hnd2.mem_erase_iff.1 hc
  have hca := hnd.mem_erase_iff.1 hcc.2
  exact ⟨⟨ha, hbb.2, hca.2⟩, Ne.symm hbb.1, Ne.symm hca.1, Ne.symm hcc.1⟩

theorem filter_ne_eq_erase (n t : ℕ) :
    (List.range n).filter (fun idx => idx ≠ t) = (List.range n).erase t := by
  rw [(List.nodup_range n).erase_eq_filter t]
  apply List.filter_congr
  intro x hx
  by_cases hxt : x = t <;> simp [hxt]

theorem idxs_length (n t : ℕ) (h4 : 4 ≤ n) :
    3 ≤ ((List.range n).filter (fun idx => idx ≠ t)).length := by
  rw [filter_ne_eq_erase]
  by_cases ht : t ∈ List.range n
  · rw [List.length_erase_of_mem ht, List.length_range]
    omega
  · rw [List.erase_of_not_mem ht, List.length_range]
    omega

/-- C7: mutation for target index `i` draws three donor indices from the
population indices excluding `i`; they are pairwise distinct, all differ from
`i` and all lie below `pop_size` (given `pop_size ≥ 4`); each mutant piece `k`
copies the immutable fields of static input piece `k` (so the `rotacao` field
of the mutant is the input piece's, i.e. absent — it is not taken from any
donor) and gets `x = donor_a[k].x + 0.8 * (donor_b[k].x - donor_c[k].x)`
clamped into `[0, sheet_width - extent_x]`, and the analogous `y`. -/
theorem mutate_donors_distinct_and_clamped (de : DifferentialEvolution)
    (pop : List (List Shape)) (target_index s1 s2 s3 a b c : ℕ)
    (h4 : 4 ≤ de.pop_size)
    (habc : sample3 ((List.range de.pop_size).filter (fun idx => idx ≠ target_index))
      s1 s2 s3 = (a, b, c)) :
    ((a < de.pop_size ∧ b < de.pop_size ∧ c < de.pop_size) ∧
     (a ≠ target_index ∧ b ≠ target_index ∧ c ≠ target_index) ∧
     (a ≠ b ∧ a ≠ c ∧ b ≠ c)) ∧
    (mutate de pop target_index s1 s2 s3).length = de.recortes_disponiveis.length ∧
    (∀ k, k < de.recortes_disponiveis.length →
      ((mutate de pop target_index s1 s2 s3).getD k default
        = { de.recortes_disponiveis.getD k default with
            x := min (max (((pop.getD a []).getD k default).x
                + (4 / 5 : ℚ) * (((pop.getD b []).getD k default).x
                  - ((pop.getD c []).getD k default).x)) 0)
              (de.sheet_width - (de.recortes_disponiveis.getD k default).getLargura),
            y := min (max (((pop.getD a []).getD k default).y
                + (4 / 5 : ℚ) * (((pop.getD b []).getD k default).y
                  - ((pop.getD c []).getD k default).y)) 0)
              (de.sheet_height - (de.recortes_disponiveis.getD k default).getAltura) }) ∧
      (0 ≤ de.sheet_width - (de.recortes_disponiveis.getD k default).getLargura →
        0 ≤ ((mutate de pop target_index s1 s2 s3).getD k default).x ∧
        ((mutate de pop target_index s1 s2 s3).getD k default).x
          ≤ de.sheet_width - (de.recortes_disponiveis.getD k default).getLargura) ∧
      (0 ≤ de.sheet_height - (de.recortes_disponiveis.getD k default).getAltura →
        0 ≤ ((mutate de pop target_index s1 s2 s3).getD k default).y ∧
        ((mutate de pop target_index s1 s2 s3).getD k default).y
          ≤ de.sheet_height - (de.recortes_disponiveis.getD k default).getAltura)) := by
  have hnd : ((List.range de.pop_size).filter (fun idx => idx ≠ target_index)).Nodup :=
    (List.nodup_range de.pop_size).filter _
  have h3 : 3 ≤ ((List.range de.pop_size).filter (fun idx => idx ≠ target_index)).length :=
    idxs_length _ _ h4
  have hs := sample3_spec _ hnd h3 s1 s2 s3
  rw [habc] at hs
  have hmem : ∀ x : ℕ,
      x ∈ (List.range de.pop_size).filter (fun idx => idx ≠ target_index) →
      x < de.pop_size ∧ x ≠ target_index := by
    intro x hx
    have h1 := List.mem_filter.1 hx
    exact ⟨List.mem_range.1 h1.1, by simpa using h1.2⟩
  have hform : ∀ k, k < de.recortes_disponiveis.length →
      (mutate de pop target_index s1 s2 s3).getD k default
        = { de.recortes_disponiveis.getD k default with
            x := min (max (((pop.getD a []).getD k default).x
                + (4 / 5 : ℚ) * (((pop.getD b []).getD k default).x
                  - ((pop.getD c []).getD k default).x)) 0)
              (de.sheet_width - (de.recortes_disponiveis.getD k default).getLargura),
            y := min (max (((pop.getD a []).getD k default).y
                + (4 / 5 : ℚ) * (((pop.getD b []).getD k default).y
                  - ((pop.getD c []).getD k default).y)) 0)
              (de.sheet_height - (de.recortes_disponiveis.getD k default).getAltura) } := by
    intro k hk
    simp only [mutate]
    rw [habc]
    exact getD_map_range _ _ _ _ hk
  refine ⟨⟨⟨(hmem _ hs.1.1).1, (hmem _ hs.1.2.1).1, (hmem _ hs.1.2.2).1⟩,
      ⟨(hmem _ hs.1.1).2, (hmem _ hs.1.2.1).2, (hmem _ hs.1.2.2).2⟩,
      hs.2.1, hs.2.2.1, hs.2.2.2⟩, ?_, ?_⟩
  · unfold mutate
    simp
  · intro k hk
    refine ⟨hform k hk, ?_, ?_⟩
    · intro h0
      rw [hform k hk]
      exact ⟨le_min (le_max_right _ _) h0, min_le_right _ _⟩
    · intro h0
      rw [hform k hk]
      exact ⟨le_min (le_max_right _ _) h0, min_le_right _ _⟩

/-- Concrete configuration for the C7 witness. -/
def deW7 : DifferentialEvolution := ⟨4, 0, 10, 10, []⟩

/-- C7 witness: the donor indices drawn for target 0 with zero seeds are
`1, 2, 3`: pairwise distinct, in range and distinct from the target. -/
theorem mutate_donors_distinct_and_clamped_w :
    (1 < deW7.pop_size ∧ 2 < deW7.pop_size ∧ 3 < deW7.pop_size) ∧
    ((1 : ℕ) ≠ 0 ∧ (2 : ℕ) ≠ 0 ∧ (3 : ℕ) ≠ 0) ∧
    ((1 : ℕ) ≠ 2 ∧ (1 : ℕ) ≠ 3 ∧ (2 : ℕ) ≠ 3) :=
  (mutate_donors_distinct_and_clamped deW7 [] 0 0 0 0 1 2 3 (by decide) (by decide)).1

/-- A candidate has one shape per static input piece, and its shape at
position `k` agrees with input piece `k` on the immutable kind/size fields. -/
def SizeAligned (de : DifferentialEvolution) (cand : List Shape) : Prop :=
  cand.length = de.recortes_disponiveis.length ∧
  ∀ k, k < de.recortes_disponiveis.length →
    ((cand.getD k default).tipo = (de.recortes_disponiveis.getD k default).tipo ∧
     (cand.getD k default).largura = (de.recortes_disponiveis.getD k default).largura ∧
     (cand.getD k default).altura = (de.recortes_disponiveis.getD k default).altura ∧
     (cand.getD k default).r = (de.recortes_disponiveis.getD k default).r)

instance (de : DifferentialEvolution) (cand : List Shape) :
    Decidable (SizeAligned de cand) := by
  unfold SizeAligned
  infer_instance

theorem sizeAligned_initialize (de : DifferentialEvolution) (ux uy : ℕ → ℕ → ℚ)
    (urot : ℕ → ℕ → ℕ) (cand : List Shape)
    (h : cand ∈ initialize_population de ux uy urot) : SizeAligned de cand := by
  unfold initialize_population at h
  rcases List.mem_map.1 h with ⟨p, hp, rfl⟩
  constructor
  · simp
  · intro k hk
    rw [getD_map_range _ _ _ _ hk]
    exact ⟨rfl, rfl, rfl, rfl⟩

theorem sizeAligned_mutate (de : DifferentialEvolution) (pop : List (List Shape))
    (t s1 s2 s3 : ℕ) : SizeAligned de (mutate de pop t s1 s2 s3) := by
  constructor
  · simp [mutate]
  · intro k hk
    simp only [mutate]
    rw [getD_map_range _ _ _ _ hk]
    exact ⟨rfl, rfl, rfl, rfl⟩

theorem sizeAligned_crossover (de : DifferentialEvolution) (target mutant : List Shape)
    (rs : ℕ → ℚ) (ht : SizeAligned de target) (hm : SizeAligned de mutant) :
    SizeAligned de (crossover target mutant rs) := by
  constructor
  · simp [crossover, ht.1]
  · intro k hk
    unfold crossover
    rw [getD_map_range _ _ _ _ (by rw [ht.1]; exact hk)]
    by_cases hr : rs k < 9 / 10
    · rw [if_pos hr]
      exact hm.2 k hk
    · rw [if_neg hr]
      exact ht.2 k hk

theorem sizeAligned_select (de : DifferentialEvolution) (target trial : List Shape)
    (ht : SizeAligned de target) (htr : SizeAligned de trial) :
    SizeAligned de (select de target trial) := by
  unfold select
  split
  · exact htr
  · exact ht

theorem sizeAligned_generationStep (de : DifferentialEvolution) (pop : List (List Shape))
    (d : ℕ → Draws) (hlen : pop.length = de.pop_size)
    (hall : ∀ cand ∈ pop, SizeAligned de cand) :
    ∀ cand ∈ generationStep de pop d, SizeAligned de cand := by
  intro cand hc
  unfold generationStep at hc
  rcases List.mem_map.1 hc with ⟨i, hi, rfl⟩
  have hi2 : i < pop.length := by
    rw [hlen]
    exact List.mem_range.1 hi
  have htarget : SizeAligned de (pop.getD i []) := hall _ (getD_mem _ _ _ hi2)
  exact sizeAligned_select de _ _ htarget
    (sizeAligned_crossover de _ _ _ htarget (sizeAligned_mutate de pop i _ _ _))

theorem sizeAligned_foldl (de : DifferentialEvolution) (draws : ℕ → ℕ → Draws) :
    ∀ (gs : List ℕ) (pop : List (List Shape)), pop.length = de.pop_size →
      (∀ cand ∈ pop, SizeAligned de cand) →
      ∀ cand ∈ gs.foldl (fun p g => generationStep de p (draws g)) pop,
        SizeAligned de cand := by
  intro gs
  induction gs with
  | nil =>
    intro pop h1 h2
    simpa using h2
  | cons g gs ih =>
    intro pop h1 h2
    simp only [List.foldl_cons]
    exact ih _ (generationStep_length de pop (draws g))
      (sizeAligned_generationStep de pop (draws g) h1 h2)

theorem pyMinAux_mem {α : Type} (f : α → ℤ) (l : List α) (best : α) :
    pyMinAux f best l ∈ best :: l := by
  obtain ⟨l1, l2, hdec, h1, h2⟩ := pyMinAux_decomp f l best
  rw [hdec]
  exact List.mem_append.2 (Or.inr (List.mem_cons_self _ _))

/-- C9: every candidate the algorithm manipulates — initial candidates,
mutants, crossover trials, selection survivors, and the returned result — has
length equal to the number of input pieces, with position `k` carrying the
immutable kind/size fields of input piece `k`. -/
theorem candidates_stay_aligned (de : DifferentialEvolution) :
    (∀ ux uy urot cand, cand ∈ initialize_population de ux uy urot →
      SizeAligned de cand) ∧
    (∀ pop t s1 s2 s3, SizeAligned de (mutate de pop t s1 s2 s3)) ∧
    (∀ target mutant rs, SizeAligned de target → SizeAligned de mutant →
      SizeAligned de (crossover target mutant rs)) ∧
    (∀ target trial, SizeAligned de target → SizeAligned de trial →
      SizeAligned de (select de target trial)) ∧
    (∀ pop draws res, pop.length = de.pop_size →
      (∀ cand ∈ pop, SizeAligned de cand) →
      run de pop draws = some res → SizeAligned de res) := by
  refine ⟨fun ux uy urot cand h => sizeAligned_initialize de ux uy urot cand h,
    fun pop t s1 s2 s3 => sizeAligned_mutate de pop t s1 s2 s3,
    fun target mutant rs ht hm => sizeAligned_crossover de target mutant rs ht hm,
    fun target trial ht htr => sizeAligned_select de target trial ht htr, ?_⟩
  intro pop draws res hlen hall hrun
  have hfin : ∀ cand ∈ runPop de pop draws, SizeAligned de cand := by
    unfold runPop
    exact sizeAligned_foldl de draws _ pop hlen hall
  unfold run at hrun
  cases hm : runPop de pop draws with
  | nil =>
    rw [hm] at hrun
    simp [pythonMin] at hrun
  | cons a l =>
    rw [hm] at hrun
    simp only [pythonMin, Option.some.injEq] at hrun
    rw [← hrun]
    refine hfin _ ?_
    rw [hm]
    exact pyMinAux_mem (evaluate de) l a

/-- Concrete configuration for the C9 witness. -/
def deW9 : DifferentialEvolution := ⟨4, 0, 10, 10, [rectAt 3 4 0 0]⟩

/-- Concrete candidate for the C9 witness. -/
def candW9 : List Shape := [rectAt 3 4 1 1]

/-- C9 witness: alignment is preserved by selection at a concrete input. -/
theorem candidates_stay_aligned_w : SizeAligned deW9 (select deW9 candW9 candW9) :=
  (candidates_stay_aligned deW9).2.2.2.1 candW9 candW9 (by decide) (by decide)

end DiffEvo
